import Mathlib

/-!
Verification of the concurrency-controlled booking admission subsystem of
`server.py` (GEU Smart Classroom Booking System).

Shallow embedding conventions:
* SQLite TEXT timestamps (ISO-8601 strings) compare lexicographically, which
  coincides with chronological order; we model every time instant as an `Int`
  (seconds).  `datetime.now()` is passed in explicitly as a `now` parameter.
* A row of the `bookings` table is the structure `Booking`; the table itself is
  a `List Booking` ordered by insertion (ids assigned by AUTOINCREMENT).
* Python `float` arithmetic on elapsed hours is idealised as exact arithmetic;
  `int(x)` truncates toward zero, which on exact values is `Int.tdiv`.
* SQLite TEXT comparison is byte-wise (`memcmp`); for the ASCII strings used
  here this is `listCharLt` below.
-/

/-- One row of the `bookings` table (see `init_db` in `server.py`). -/
structure Booking where
  id : Nat
  faculty : String
  faculty_name : String
  room : String
  subject : String
  purpose : String
  start_time : Int
  end_time : Int
  notes : String
  status : String
  priority : String
  timestamp : Int
  approved_at : Option Int
  rejected_at : Option Int
deriving DecidableEq

/-- The JSON body of a `POST /api/request` call, after the required-field
accesses `data['faculty']`, `data['room']`, `data['purpose']`, `data['start']`,
`data['end']` have succeeded; fields read with `data.get(...)` are optional. -/
structure BookingRequest where
  faculty : String
  facultyName : Option String
  room : String
  subject : Option String
  purpose : String
  startTime : Int
  endTime : Int
  notes : Option String
  priority : Option String
deriving DecidableEq

/-- Outcome of `create_booking`: HTTP 200 with the new id, HTTP 409
("Room was just booked by someone else"), or HTTP 503 from the semaphore
("System busy. Too many concurrent booking requests."). -/
inductive CreateResult where
  | success (id : Nat)
  | conflict
  | serviceBusy
deriving DecidableEq

/-- Outcome of `approve_booking` / `reject_booking`: HTTP 200, or HTTP 404
("Booking not found"). -/
inductive DecideResult where
  | ok
  | notFound
deriving DecidableEq

/-- `PRIORITY_LEVELS.get(p, d)` over the dict
`{'urgent': 1, 'high': 2, 'normal': 3, 'low': 4}`. -/
def PRIORITY_LEVELS_get (p : String) (d : Int) : Int :=
  if p = "urgent" then 1
  else if p = "high" then 2
  else if p = "normal" then 3
  else if p = "low" then 4
  else d

/-- `calculate_priority_with_aging(base_priority, created_at)` from
`server.py`.  The Python code computes
`age_hours = (now - created_at).total_seconds() / 3600` and
`aging_bonus = int(age_hours / 24)`; on exact arithmetic `int(...)` truncation
of `seconds / 3600 / 24` is `Int.tdiv seconds 86400`.  `datetime.now()` is the
explicit argument `now`. -/
def calculate_priority_with_aging (base_priority : Int) (created_at now : Int) : Int :=
  let aging_bonus : Int := Int.tdiv (now - created_at) 86400
  max 1 (base_priority - aging_bonus)

/-- The overlap test of the `create_booking` transaction
(`server.py` lines 616–620), applied to an existing row `e` and the requested
interval `[s, t)`:
`(start_time <= s AND end_time > s) OR (start_time < t AND end_time >= t)`. -/
def overlapsCode (e : Booking) (s t : Int) : Bool :=
  (decide (e.start_time ≤ s) && decide (e.end_time > s)) ||
    (decide (e.start_time < t) && decide (e.end_time ≥ t))

/-- The `SELECT COUNT(*) ... > 0` conflict check of `create_booking`:
some row of the ledger with the requested room and status `'approved'`
satisfies `overlapsCode`. -/
def hasConflict (ledger : List Booking) (room : String) (s t : Int) : Bool :=
  ledger.any fun e => e.room == room && e.status == "approved" && overlapsCode e s t

/-- The `BEGIN EXCLUSIVE` transaction body of `create_booking`
(`server.py` lines 611–655): check for an approved overlapping booking; on
conflict roll back (ledger unchanged) and answer 409; otherwise insert a new
`'pending'` row whose priority is `data.get('priority', 'normal')` and whose
`timestamp` is `datetime.now().isoformat()`.  `nextId` is the AUTOINCREMENT id
the insert would receive. -/
def create_booking_txn (ledger : List Booking) (req : BookingRequest)
    (now : Int) (nextId : Nat) : CreateResult × List Booking :=
  if hasConflict ledger req.room req.startTime req.endTime then
    (CreateResult.conflict, ledger)
  else
    let priority := req.priority.getD "normal"
    let row : Booking :=
      { id := nextId
        faculty := req.faculty
        faculty_name := req.facultyName.getD ""
        room := req.room
        subject := req.subject.getD ""
        purpose := req.purpose
        start_time := req.startTime
        end_time := req.endTime
        notes := req.notes.getD ""
        status := "pending"
        priority := priority
        timestamp := now
        approved_at := none
        rejected_at := none }
    (CreateResult.success nextId, ledger ++ [row])

/-- `booking_semaphore = threading.Semaphore(5)` (`server.py` line 57). -/
def booking_semaphore_capacity : Nat := 5

/-- `booking_semaphore.acquire(blocking=False)`: a non-blocking decrement of
the semaphore counter, returning whether the slot was obtained.  It is a total
function — the caller is never suspended. -/
def semTryAcquire (sem : Nat) : Bool × Nat :=
  if sem = 0 then (false, sem) else (true, sem - 1)

/-- `booking_semaphore.release()`. -/
def semRelease (sem : Nat) : Nat := sem + 1

/-- The whole `create_booking` handler: non-blocking semaphore acquisition
(503 `serviceBusy` on failure), then the transaction, then — in a `finally:`
block, hence on every exit path — the semaphore release.  Returns the HTTP
outcome, the final semaphore counter, and the final ledger. -/
def create_booking (sem : Nat) (ledger : List Booking) (req : BookingRequest)
    (now : Int) (nextId : Nat) : CreateResult × Nat × List Booking :=
  match semTryAcquire sem with
  | (false, s) => (CreateResult.serviceBusy, s, ledger)
  | (true, s) =>
    let r := create_booking_txn ledger req now nextId
    (r.1, semRelease s, r.2)

/-- `approve_booking(booking_id)` (`server.py` lines 677–702):
`UPDATE bookings SET status='approved', approved_at=? WHERE id=?` with no
condition on the current status, then `SELECT` the row; 404 iff no row has
that id. -/
def approve_booking (ledger : List Booking) (bid : Nat) (now : Int) :
    DecideResult × List Booking :=
  let updated := ledger.map fun b =>
    if b.id == bid then { b with status := "approved", approved_at := some now } else b
  if ledger.any (fun b => b.id == bid) then (DecideResult.ok, updated)
  else (DecideResult.notFound, updated)

/-- `reject_booking(booking_id)` (`server.py` lines 704–729): the mirror image
of `approve_booking`, setting `status='rejected', rejected_at=?`
unconditionally. -/
def reject_booking (ledger : List Booking) (bid : Nat) (now : Int) :
    DecideResult × List Booking :=
  let updated := ledger.map fun b =>
    if b.id == bid then { b with status := "rejected", rejected_at := some now } else b
  if ledger.any (fun b => b.id == bid) then (DecideResult.ok, updated)
  else (DecideResult.notFound, updated)

/-- Byte-wise string comparison: model of SQLite's `memcmp` TEXT ordering,
which on the ASCII status strings used here is character-wise lexicographic
comparison with a proper prefix comparing smaller. -/
def listCharLt : List Char → List Char → Bool
  | _, [] => false
  | [], _ :: _ => true
  | a :: as, b :: bs => a < b || (a == b && listCharLt as bs)

/-- SQLite TEXT `<` on strings. -/
def strLt (a b : String) : Bool := listCharLt a.data b.data

/-- The comparator of `ORDER BY status ASC, id DESC` in `get_bookings`:
`a` comes no later than `b` iff `a.status < b.status`, or the statuses are
equal and `a.id ≥ b.id`. -/
def sqlLe (a b : Booking) : Bool :=
  strLt a.status b.status || (a.status == b.status && decide (b.id ≤ a.id))

/-- Insertion sort step for a boolean comparator: `x` is placed before the
first element `y` with `¬ le y x`. -/
def insertLe {α : Type} (le : α → α → Bool) (x : α) : List α → List α
  | [] => [x]
  | y :: ys => if le y x then y :: insertLe le x ys else x :: y :: ys

/-- Insertion sort for a boolean comparator; with a total antisymmetric
comparator (as `sqlLe` is on rows with distinct ids) it produces the unique
order SQLite's `ORDER BY` produces. -/
def insertionSortLe {α : Type} (le : α → α → Bool) : List α → List α
  | [] => []
  | x :: xs => insertLe le x (insertionSortLe le xs)

/-- Stable-keyed insertion step: `x` is placed before the first element `y`
whose key is `≥ k x`, i.e. an element inserted later (originally earlier in
the list, in this recursion scheme) precedes elements of equal key. -/
def insertByKey {α : Type} (k : α → Int) (x : α) : List α → List α
  | [] => [x]
  | y :: ys => if k y < k x then y :: insertByKey k x ys else x :: y :: ys

/-- Stable sort by an `Int` key, ascending: the model of Python's stable
`list.sort(key=...)` — two elements of equal key keep their original relative
order. -/
def stableSortByKey {α : Type} (k : α → Int) : List α → List α
  | [] => []
  | x :: xs => insertByKey k x (stableSortByKey k xs)

/-- The sort key of `bookings.sort(key=lambda x: x.get('effectivePriority', 999))`
for a pending row: `calculate_priority_with_aging(PRIORITY_LEVELS.get(priority, 3), timestamp)`. -/
def effKey (now : Int) (b : Booking) : Int :=
  calculate_priority_with_aging (PRIORITY_LEVELS_get b.priority 3) b.timestamp now

/-- The row filter of `GET /api/bookings?status=pending` (optionally also
`faculty=...`): the SQL `WHERE` clause. -/
def pendingFilter (faculty : Option String) (b : Booking) : Bool :=
  (match faculty with
   | some f => b.faculty == f
   | none => true) && b.status == "pending"

/-- `get_bookings` with `status=pending` (`server.py` lines 516–586):
`SELECT * FROM bookings WHERE [faculty = ?] AND status = 'pending'
ORDER BY status ASC, id DESC`, then the stable Python sort
`bookings.sort(key=lambda x: x.get('effectivePriority', 999))`, where every
selected row is pending and therefore carries
`effectivePriority = calculate_priority_with_aging(...)`. -/
def get_bookings_pending (ledger : List Booking) (faculty : Option String)
    (now : Int) : List Booking :=
  let rows := insertionSortLe sqlLe (ledger.filter (pendingFilter faculty))
  stableSortByKey (effKey now) rows

/-- `all_rooms` of `get_empty_rooms` (`server.py` line 488). -/
def all_rooms : List String := ["C-101", "L-201", "SH-301"]

/-- One row of the `timetable` table. -/
structure TimetableEntry where
  day : String
  time : String
  room : String
  faculty : String
  subject : String
  semester : String
deriving DecidableEq

/-- `get_empty_rooms` (`server.py` lines 482–514).  `q` is the instant denoted
by the SQL expression `datetime(day || ' ' || time)`; the booking query is
`status = 'approved' AND datetime(start_time) <= datetime(q) AND
datetime(end_time) >= datetime(q)`.  A room is empty iff it is in `all_rooms`
and in neither the timetable-occupied nor the booking-occupied set. -/
def get_empty_rooms (timetable : List TimetableEntry) (bookings : List Booking)
    (day tm : String) (q : Int) : List String :=
  let occupied := (timetable.filter fun e => e.day == day && e.time == tm).map
    fun e => e.room
  let booked := (bookings.filter fun b =>
    b.status == "approved" && decide (b.start_time ≤ q) && decide (q ≤ b.end_time)).map
    fun b => b.room
  all_rooms.filter fun r => !(occupied.contains r || booked.contains r)

/-- Events of the `ReaderWriterLock` model: a caller requests, is granted, and
releases a read or write lock.  A request becomes "waiting" at its `req` event
and stops waiting at its `grant` event. -/
inductive RWEvent where
  | reqR (i : Nat)
  | reqW (i : Nat)
  | grantR (i : Nat)
  | grantW (i : Nat)
  | relR (i : Nat)
  | relW (i : Nat)
deriving DecidableEq

/-- State of the `ReaderWriterLock` (`server.py` lines 65–100): the `readers`
and `writers` counters of the class, plus bookkeeping of which callers are
waiting (`pendingR`/`pendingW`) or holding (`holdR`/`holdW`). -/
structure RWState where
  readers : Nat
  writers : Nat
  pendingR : List Nat
  pendingW : List Nat
  holdR : List Nat
  holdW : List Nat
deriving DecidableEq

def rwInit : RWState := ⟨0, 0, [], [], [], []⟩

/-- One step of the `ReaderWriterLock` semantics, `none` when the event is not
enabled.  Faithful to the code: `acquire_read` completes (`grantR`) as soon as
`writers == 0` — the `writers` counter is incremented only when a writer is
*granted* (`acquire_write` runs `writers += 1` only after its wait loop), so a
merely waiting writer does not block new readers.  `acquire_write` completes
(`grantW`) only when `writers == 0 and readers == 0`. -/
def rwStep (s : RWState) : RWEvent → Option RWState
  | RWEvent.reqR i => some { s with pendingR := s.pendingR ++ [i] }
  | RWEvent.reqW i => some { s with pendingW := s.pendingW ++ [i] }
  | RWEvent.grantR i =>
    if i ∈ s.pendingR ∧ s.writers = 0 then
      some { s with readers := s.readers + 1, pendingR := s.pendingR.erase i,
                    holdR := s.holdR ++ [i] }
    else none
  | RWEvent.grantW i =>
    if i ∈ s.pendingW ∧ s.writers = 0 ∧ s.readers = 0 then
      some { s with writers := s.writers + 1, pendingW := s.pendingW.erase i,
                    holdW := s.holdW ++ [i] }
    else none
  | RWEvent.relR i =>
    if i ∈ s.holdR ∧ s.readers ≠ 0 then
      some { s with readers := s.readers - 1, holdR := s.holdR.erase i }
    else none
  | RWEvent.relW i =>
    if i ∈ s.holdW ∧ s.writers ≠ 0 then
      some { s with writers := s.writers - 1, holdW := s.holdW.erase i }
    else none

/-- Run a whole event trace of the `ReaderWriterLock` from the initial state;
`none` when some event was not enabled (the trace is not a possible
execution). -/
def rwExec (t : List RWEvent) : Option RWState :=
  t.foldl (fun os e => os.bind fun s => rwStep s e) (some rwInit)

/-- The write-preference property claimed of the lock: whenever a write
request (event index `i`) is still waiting at the moment a read request
arrives (index `j > i`, no grant of the writer before `j`), that read is not
granted (index `k`) before the writer is. -/
def writePreferring (t : List RWEvent) : Prop :=
  ∀ i j k w r, i < j → j < k →
    t.get? i = some (RWEvent.reqW w) →
    t.get? j = some (RWEvent.reqR r) →
    (∀ m, m < j → t.get? m ≠ some (RWEvent.grantW w)) →
    t.get? k = some (RWEvent.grantR r) →
    ∃ m, m < k ∧ t.get? m = some (RWEvent.grantW w)

/-! ### Concrete data shared by witnesses and counterexamples -/

/-- An approved booking of room `C-101` for the half-open interval `[0, 10)`. -/
def bkApproved : Booking :=
  { id := 1, faculty := "2000001@geu.ac.in", faculty_name := "Prof. Gupta",
    room := "C-101", subject := "DBMS", purpose := "lecture",
    start_time := 0, end_time := 10, notes := "", status := "approved",
    priority := "normal", timestamp := 0, approved_at := some 0,
    rejected_at := none }

/-- A request for exactly the slot of `bkApproved`, with no priority field. -/
def reqSameSlot : BookingRequest :=
  { faculty := "2000003@geu.ac.in", facultyName := none, room := "C-101",
    subject := none, purpose := "extra class", startTime := 0, endTime := 10,
    notes := none, priority := none }

/-- An approved booking of room `C-101` for `[4, 6)`. -/
def bkContained : Booking :=
  { id := 3, faculty := "2000002@geu.ac.in", faculty_name := "Dr. Iyer",
    room := "C-101", subject := "", purpose := "meeting",
    start_time := 4, end_time := 6, notes := "", status := "approved",
    priority := "high", timestamp := 0, approved_at := some 1,
    rejected_at := none }

/-- A request for `[2, 8)` on room `C-101`, strictly containing `bkContained`. -/
def reqWide : BookingRequest :=
  { faculty := "2000004@geu.ac.in", facultyName := none, room := "C-101",
    subject := none, purpose := "workshop", startTime := 2, endTime := 8,
    notes := none, priority := some "urgent" }

/-- A request whose interval is malformed: `start = 50 > 20 = end`. -/
def reqBadInterval : BookingRequest :=
  { faculty := "2000005@geu.ac.in", facultyName := none, room := "L-201",
    subject := none, purpose := "demo", startTime := 50, endTime := 20,
    notes := none, priority := some "high" }

/-- A pending booking with id `1`, created at time `0`. -/
def bkP1 : Booking :=
  { id := 1, faculty := "2000006@geu.ac.in", faculty_name := "Prof. Kaur",
    room := "C-101", subject := "", purpose := "tutorial",
    start_time := 5000, end_time := 6000, notes := "", status := "pending",
    priority := "normal", timestamp := 0, approved_at := none,
    rejected_at := none }

/-- A pending booking with id `2`, created later, at time `1000`. -/
def bkP2 : Booking :=
  { id := 2, faculty := "2000007@geu.ac.in", faculty_name := "Dr. Mehta",
    room := "L-201", subject := "", purpose := "lab",
    start_time := 7000, end_time := 8000, notes := "", status := "pending",
    priority := "normal", timestamp := 1000, approved_at := none,
    rejected_at := none }

/-- A pending booking whose stored priority string `'asap'` is none of the
four recognised levels. -/
def bkAsap : Booking :=
  { id := 9, faculty := "2000008@geu.ac.in", faculty_name := "Prof. Nair",
    room := "SH-301", subject := "", purpose := "event",
    start_time := 100, end_time := 200, notes := "", status := "pending",
    priority := "asap", timestamp := 0, approved_at := none,
    rejected_at := none }

/-! ### Helper lemmas -/

/-- On a non-negative numerand, the Python `int(...)` truncation (`Int.tdiv`)
agrees with floor division. -/
theorem tdiv_eq_fdiv_of_nonneg (s : Int) (h : 0 ≤ s) :
    Int.tdiv s 86400 = Int.fdiv s 86400 := by
  rw [Int.tdiv_eq_ediv h (by decide), Int.fdiv_eq_ediv _ (by decide)]

/-- Truncating division by `86400` is monotone on non-negative numerands. -/
theorem tdiv_86400_mono {s1 s2 : Int} (h0 : 0 ≤ s1) (h : s1 ≤ s2) :
    Int.tdiv s1 86400 ≤ Int.tdiv s2 86400 := by
  rw [Int.tdiv_eq_ediv h0 (by decide), Int.tdiv_eq_ediv (le_trans h0 h) (by decide)]
  exact Int.ediv_le_ediv (by decide) h

/-- The conflict check of `create_booking` succeeds exactly when some approved
booking of the requested room satisfies the code's two-disjunct test. -/
theorem hasConflict_iff (ledger : List Booking) (room : String) (s t : Int) :
    hasConflict ledger room s t = true ↔
      ∃ e ∈ ledger, e.room = room ∧ e.status = "approved" ∧
        ((e.start_time ≤ s ∧ s < e.end_time) ∨
         (e.start_time < t ∧ t ≤ e.end_time)) := by
  simp [hasConflict, List.any_eq_true, overlapsCode, and_assoc]

/-- The final ledger of `approve_booking` is the unconditional
status/timestamp update of every row whose id matches. -/
theorem approve_booking_snd (ledger : List Booking) (bid : Nat) (now : Int) :
    (approve_booking ledger bid now).2 = ledger.map fun b =>
      if b.id == bid then { b with status := "approved", approved_at := some now }
      else b := by
  unfold approve_booking
  split <;> rfl

/-- The final ledger of `reject_booking` is the unconditional
status/timestamp update of every row whose id matches. -/
theorem reject_booking_snd (ledger : List Booking) (bid : Nat) (now : Int) :
    (reject_booking ledger bid now).2 = ledger.map fun b =>
      if b.id == bid then { b with status := "rejected", rejected_at := some now }
      else b := by
  unfold reject_booking
  split <;> rfl

/-- `approve_booking` answers 200 exactly when some row has the id. -/
theorem approve_booking_fst (ledger : List Booking) (bid : Nat) (now : Int) :
    (approve_booking ledger bid now).1 = DecideResult.ok ↔
      ∃ b ∈ ledger, b.id = bid := by
  unfold approve_booking
  split
  · next hc => simp_all [List.any_eq_true]
  · next hc => simp_all [List.any_eq_true]

/-- `reject_booking` answers 200 exactly when some row has the id. -/
theorem reject_booking_fst (ledger : List Booking) (bid : Nat) (now : Int) :
    (reject_booking ledger bid now).1 = DecideResult.ok ↔
      ∃ b ∈ ledger, b.id = bid := by
  unfold reject_booking
  split
  · next hc => simp_all [List.any_eq_true]
  · next hc => simp_all [List.any_eq_true]

/-! ### Claim C1 -/

/-- Claim C1, counterexample: the approved booking `[4, 6)` lies strictly
inside the requested interval `[2, 8)` on the same room, so the half-open test
of the claim (`existing.start < requested.end ∧ existing.end > requested.start`)
holds, yet `create_booking` detects no conflict and inserts the request. -/
theorem c1_contained_overlap_missed :
    bkContained.status = "approved"
    ∧ bkContained.room = reqWide.room
    ∧ bkContained.start_time < reqWide.endTime
    ∧ bkContained.end_time > reqWide.startTime
    ∧ (create_booking_txn [bkContained] reqWide 0 4).1 = CreateResult.success 4 := by
  decide

/-- Claim C1, amended: the transaction returns `Conflict` exactly when some
approved reservation on the room satisfies the code's two-disjunct test
`(existing.start ≤ requested.start < existing.end) OR
(existing.start < requested.end ≤ existing.end)`; an approved reservation
lying strictly inside the requested interval satisfies neither disjunct and is
not reported as a conflict. -/
theorem c1_conflict_iff_code_test (ledger : List Booking) (req : BookingRequest)
    (now : Int) (nextId : Nat) :
    (create_booking_txn ledger req now nextId).1 = CreateResult.conflict ↔
      ∃ e ∈ ledger, e.room = req.room ∧ e.status = "approved" ∧
        ((e.start_time ≤ req.startTime ∧ req.startTime < e.end_time) ∨
         (e.start_time < req.endTime ∧ req.endTime ≤ e.end_time)) := by
  rw [← hasConflict_iff ledger req.room req.startTime req.endTime]
  unfold create_booking_txn
  constructor
  · intro h
    by_contra hc
    simp only [Bool.not_eq_true] at hc
    simp [hc] at h
  · intro h
    simp [h]

/-! ### Claim C2 -/

/-- Claim C2, counterexample: `reject_booking` on a booking whose status is
already `'approved'` answers 200 and overwrites the status — there is no
`AlreadyDecided` failure and the `pending → approved` transition is not
irreversible. -/
theorem c2_reject_overwrites_approved :
    bkApproved.status = "approved"
    ∧ (reject_booking [bkApproved] 1 5).1 = DecideResult.ok
    ∧ ((reject_booking [bkApproved] 1 5).2.map fun b => b.status) = ["rejected"]
    ∧ ((reject_booking [bkApproved] 1 5).2.map fun b => b.rejected_at) = [some 5] := by
  decide

/-- Claim C2, amended: `approve_booking` and `reject_booking` set the status
and the corresponding timestamp unconditionally for every row whose id
matches, succeeding whenever the id exists (404 only when it does not); in
particular a booking can be approved and then rejected, so transitions are
neither guarded by a `pending` check nor irreversible, and no `AlreadyDecided`
outcome exists. -/
theorem c2_decide_unconditional (ledger : List Booking) (bid : Nat)
    (now now2 : Int) (b : Booking) (hb : b ∈ ledger) (hid : b.id = bid) :
    (approve_booking ledger bid now).1 = DecideResult.ok
    ∧ (∀ c ∈ (approve_booking ledger bid now).2, c.id = bid →
        c.status = "approved" ∧ c.approved_at = some now)
    ∧ (reject_booking (approve_booking ledger bid now).2 bid now2).1 = DecideResult.ok
    ∧ (∀ c ∈ (reject_booking (approve_booking ledger bid now).2 bid now2).2,
        c.id = bid → c.status = "rejected" ∧ c.rejected_at = some now2) := by
  have hid' : ∀ x : Booking, ∀ st : String, ∀ ts : Option Int,
      ({ x with status := st, approved_at := ts } : Booking).id = x.id := fun _ _ _ => rfl
  refine ⟨?_, ?_, ?_, ?_⟩
  · exact (approve_booking_fst ledger bid now).2 ⟨b, hb, hid⟩
  · intro c hc hcid
    rw [approve_booking_snd] at hc
    obtain ⟨d, hd, rfl⟩ := List.mem_map.1 hc
    by_cases h : d.id == bid
    · simp [h]
    · simp only [h, if_false] at hcid ⊢
      exact absurd (by simpa using hcid) (by simpa using h)
  · refine (reject_booking_fst _ bid now2).2 ?_
    rw [approve_booking_snd]
    refine ⟨_, List.mem_map.2 ⟨b, hb, rfl⟩, ?_⟩
    by_cases h : b.id == bid
    · simp [h, hid]
    · simp [h, hid]
  · intro c hc hcid
    rw [reject_booking_snd] at hc
    obtain ⟨d, hd, rfl⟩ := List.mem_map.1 hc
    by_cases h : d.id == bid
    · simp [h]
    · simp only [h, if_false] at hcid ⊢
      exact absurd (by simpa using hcid) (by simpa using h)

/-- Claim C2, witness for the amended theorem at a concrete input: the
approved booking `bkApproved` is approved again at time `11` and then rejected
at time `13`, both calls succeeding. -/
theorem c2_decide_unconditional_witness :
    (approve_booking [bkApproved] 1 11).1 = DecideResult.ok
    ∧ (∀ c ∈ (approve_booking [bkApproved] 1 11).2, c.id = 1 →
        c.status = "approved" ∧ c.approved_at = some 11)
    ∧ (reject_booking (approve_booking [bkApproved] 1 11).2 1 13).1 = DecideResult.ok
    ∧ (∀ c ∈ (reject_booking (approve_booking [bkApproved] 1 11).2 1 13).2,
        c.id = 1 → c.status = "rejected" ∧ c.rejected_at = some 13) :=
  c2_decide_unconditional [bkApproved] 1 11 13 bkApproved (by decide) rfl

/-! ### Claim C3 -/

/-- Claim C3, counterexample: a request whose interval is malformed
(`start = 50 > 20 = end`) is accepted by `create_booking` on an empty ledger:
the call succeeds and a row is stored, instead of yielding a validation
error. -/
theorem c3_invalid_interval_stored :
    reqBadInterval.endTime < reqBadInterval.startTime
    ∧ (create_booking_txn [] reqBadInterval 0 1).1 = CreateResult.success 1
    ∧ (create_booking_txn [] reqBadInterval 0 1).2.length = 1 := by
  decide

/-- Claim C3, amended: `create_booking` performs no interval validation at
all; a request with `start ≥ end` is subjected only to the overlap check, and
whenever no approved booking matches that check the request is stored as a
pending row and the call succeeds — no `ValidationError` outcome exists. -/
theorem c3_no_interval_validation (ledger : List Booking) (req : BookingRequest)
    (now : Int) (nextId : Nat) (hiv : req.endTime ≤ req.startTime)
    (hnc : hasConflict ledger req.room req.startTime req.endTime = false) :
    (create_booking_txn ledger req now nextId).1 = CreateResult.success nextId
    ∧ (create_booking_txn ledger req now nextId).2.length = ledger.length + 1 := by
  simp [create_booking_txn, hnc]

/-- Claim C3, witness for the amended theorem: the malformed request
`reqBadInterval` against the one-row ledger `[bkApproved]` (different room, no
conflict) succeeds and grows the ledger. -/
theorem c3_no_interval_validation_witness :
    (create_booking_txn [bkApproved] reqBadInterval 3 7).1 = CreateResult.success 7
    ∧ (create_booking_txn [bkApproved] reqBadInterval 3 7).2.length = 1 + 1 :=
  c3_no_interval_validation [bkApproved] reqBadInterval 3 7 (by decide) (by decide)

/-! ### Claim C4 -/

/-- Claim C4: the effective priority of a pending request equals
`max(1, rank(basePriority) - floor(ageHours / 24))` (on a non-negative age the
code's truncating division is floor division), the rank map is
`urgent=1, high=2, normal=3, low=4`, the result is bounded below by `1`, it is
non-increasing in the current time for a fixed base priority and creation
time, and a `low` request created at `T` has effective priority `1` at
`T + 72h`. -/
theorem c4_priority_aging_spec (p : String)
    (hp : p = "urgent" ∨ p = "high" ∨ p = "normal" ∨ p = "low")
    (created now now2 : Int) (h1 : created ≤ now) (h2 : now ≤ now2) :
    (PRIORITY_LEVELS_get "urgent" 3 = 1 ∧ PRIORITY_LEVELS_get "high" 3 = 2 ∧
      PRIORITY_LEVELS_get "normal" 3 = 3 ∧ PRIORITY_LEVELS_get "low" 3 = 4)
    ∧ calculate_priority_with_aging (PRIORITY_LEVELS_get p 3) created now
        = max 1 (PRIORITY_LEVELS_get p 3 - Int.fdiv (now - created) 86400)
    ∧ 1 ≤ calculate_priority_with_aging (PRIORITY_LEVELS_get p 3) created now
    ∧ calculate_priority_with_aging (PRIORITY_LEVELS_get p 3) created now2
        ≤ calculate_priority_with_aging (PRIORITY_LEVELS_get p 3) created now
    ∧ calculate_priority_with_aging (PRIORITY_LEVELS_get "low" 3) created
        (created + 72 * 3600) = 1 := by
  refine ⟨by decide, ?_, ?_, ?_, ?_⟩
  · unfold calculate_priority_with_aging
    rw [tdiv_eq_fdiv_of_nonneg _ (by omega)]
  · exact le_max_left _ _
  · unfold calculate_priority_with_aging
    have h0 : (0 : Int) ≤ now - created := by omega
    have hstep : now - created ≤ now2 - created := by omega
    have hmono := tdiv_86400_mono h0 hstep
    exact max_le_max (le_refl 1) (by omega)
  · have hlow : PRIORITY_LEVELS_get "low" 3 = 4 := by decide
    unfold calculate_priority_with_aging
    rw [hlow]
    have hexp : created + 72 * 3600 - created = (259200 : Int) := by ring
    rw [hexp]
    decide

/-- Claim C4, witness: the aging formula evaluated for a `low` request created
at time `0`, observed at `now = 90000` (25 hours) and `now2 = 200000`. -/
theorem c4_priority_aging_spec_witness :
    (PRIORITY_LEVELS_get "urgent" 3 = 1 ∧ PRIORITY_LEVELS_get "high" 3 = 2 ∧
      PRIORITY_LEVELS_get "normal" 3 = 3 ∧ PRIORITY_LEVELS_get "low" 3 = 4)
    ∧ calculate_priority_with_aging (PRIORITY_LEVELS_get "low" 3) 0 90000
        = max 1 (PRIORITY_LEVELS_get "low" 3 - Int.fdiv (90000 - 0) 86400)
    ∧ 1 ≤ calculate_priority_with_aging (PRIORITY_LEVELS_get "low" 3) 0 90000
    ∧ calculate_priority_with_aging (PRIORITY_LEVELS_get "low" 3) 0 200000
        ≤ calculate_priority_with_aging (PRIORITY_LEVELS_get "low" 3) 0 90000
    ∧ calculate_priority_with_aging (PRIORITY_LEVELS_get "low" 3) 0
        (0 + 72 * 3600) = 1 :=
  c4_priority_aging_spec "low" (Or.inr (Or.inr (Or.inr rfl))) 0 90000 200000
    (by decide) (by decide)

/-! ### Claim C6 -/

/-- Claim C6: when the transaction detects an overlap and answers `Conflict`,
it rolls back and writes no row — the final ledger is exactly the initial
one. -/
theorem c6_conflict_preserves_ledger (ledger : List Booking)
    (req : BookingRequest) (now : Int) (nextId : Nat)
    (h : (create_booking_txn ledger req now nextId).1 = CreateResult.conflict) :
    (create_booking_txn ledger req now nextId).2 = ledger := by
  unfold create_booking_txn at h ⊢
  by_cases hc : hasConflict ledger req.room req.startTime req.endTime
  · simp [hc]
  · simp [hc] at h

/-- Claim C6, witness: a request for the exact slot of the approved booking
`bkApproved` conflicts, and the ledger after the call is unchanged. -/
theorem c6_conflict_preserves_ledger_witness :
    (create_booking_txn [bkApproved] reqSameSlot 20 2).2 = [bkApproved] :=
  c6_conflict_preserves_ledger [bkApproved] reqSameSlot 20 2 (by decide)

/-! ### Claim C7 -/

/-- Claim C7: the admission limiter has fixed capacity `5`; five successful
non-blocking acquisitions exhaust it and a sixth attempt immediately yields
`serviceBusy` (the acquire is a total function, never a blocking wait); and on
every path of `create_booking` — busy, conflict or success — the final
semaphore counter equals the initial one, because the release runs in a
`finally:` block. -/
theorem c7_admission_limiter :
    booking_semaphore_capacity = 5
    ∧ (semTryAcquire 5 = (true, 4) ∧ semTryAcquire 4 = (true, 3)
        ∧ semTryAcquire 3 = (true, 2) ∧ semTryAcquire 2 = (true, 1)
        ∧ semTryAcquire 1 = (true, 0) ∧ semTryAcquire 0 = (false, 0))
    ∧ (∀ ledger req now nextId,
        (create_booking 0 ledger req now nextId).1 = CreateResult.serviceBusy
        ∧ (create_booking 0 ledger req now nextId).2.2 = ledger)
    ∧ (∀ sem ledger req now nextId,
        (create_booking sem ledger req now nextId).2.1 = sem) := by
  refine ⟨rfl, by decide, ?_, ?_⟩
  · intro ledger req now nextId
    exact ⟨rfl, rfl⟩
  · intro sem ledger req now nextId
    match sem with
    | 0 => rfl
    | s + 1 =>
      show semRelease ((s + 1) - 1) = s + 1
      rfl

/-! ### Claim C9 -/

/-- Claim C9, counterexample: the approved booking `bkApproved` of room
`C-101` ends exactly at instant `10`, yet the empty-rooms query at instant
`10` still counts the room as occupied (it is missing from the returned empty
rooms), because the SQL test uses `end_time >= t`, an inclusive end. -/
theorem c9_end_instant_occupied :
    bkApproved.status = "approved"
    ∧ bkApproved.room = "C-101"
    ∧ bkApproved.end_time = 10
    ∧ "C-101" ∉ get_empty_rooms [] [bkApproved] "Monday" "10:00" 10 := by
  decide

/-- Claim C9, amended: interval ends are inclusive in the availability
arithmetic of `get_empty_rooms`: a room from `all_rooms` is reported empty at
instant `q` iff no timetable entry occupies it at the queried day/time slot
and no approved booking `b` has `b.start_time ≤ q ≤ b.end_time` — so a
booking whose end equals `q` does make the room occupied. -/
theorem c9_availability_inclusive (timetable : List TimetableEntry)
    (bookings : List Booking) (day tm : String) (q : Int) (room : String)
    (hroom : room ∈ all_rooms) :
    room ∈ get_empty_rooms timetable bookings day tm q ↔
      (¬ ∃ e ∈ timetable, e.day = day ∧ e.time = tm ∧ e.room = room)
      ∧ (¬ ∃ b ∈ bookings, b.status = "approved" ∧ b.start_time ≤ q
            ∧ q ≤ b.end_time ∧ b.room = room) := by
  unfold get_empty_rooms
  simp only [List.mem_filter, hroom, true_and, Bool.not_eq_true',
    Bool.or_eq_false_iff, List.contains, List.elem_eq_mem,
    decide_eq_false_iff_not, List.mem_map, Bool.and_eq_true, beq_iff_eq,
    decide_eq_true_eq]
  constructor
  · rintro ⟨h1, h2⟩
    refine ⟨?_, ?_⟩
    · rintro ⟨e, he, hd, ht, hr⟩
      exact h1 ⟨e, ⟨he, hd, ht⟩, hr⟩
    · rintro ⟨b, hb, hs, hsq, hqe, hr⟩
      exact h2 ⟨b, ⟨hb, ⟨hs, hsq⟩, hqe⟩, hr⟩
  · rintro ⟨h1, h2⟩
    refine ⟨?_, ?_⟩
    · rintro ⟨x, ⟨hx, hd, ht⟩, hr⟩
      exact h1 ⟨x, hx, hd, ht, hr⟩
    · rintro ⟨x, ⟨hx, ⟨hs, hsq⟩, hqe⟩, hr⟩
      exact h2 ⟨x, hx, hs, hsq, hqe, hr⟩

/-- Claim C9, witness: at instant `11`, strictly after the end of
`bkApproved`, room `C-101` is reported empty. -/
theorem c9_availability_inclusive_witness :
    "C-101" ∈ get_empty_rooms [] [bkApproved] "Monday" "10:00" 11 :=
  (c9_availability_inclusive [] [bkApproved] "Monday" "10:00" 11 "C-101"
    (by decide)).2 (by decide)

/-! ### Claim C10 -/

/-- Claim C10: a request without a priority field is stored with priority
`'normal'`; and any stored priority string other than
`urgent/high/normal/low` is ranked `3` by the listing — the same rank as
`'normal'` — so its effective priority is computed from base rank `3`. -/
theorem c10_priority_defaults :
    (∀ ledger (req : BookingRequest) now nextId, req.priority = none →
        hasConflict ledger req.room req.startTime req.endTime = false →
        ((create_booking_txn ledger req now nextId).2.map fun b => b.priority)
          = (ledger.map fun b => b.priority) ++ ["normal"])
    ∧ (∀ p : String,
        ¬(p = "urgent" ∨ p = "high" ∨ p = "normal" ∨ p = "low") →
        PRIORITY_LEVELS_get p 3 = 3
        ∧ PRIORITY_LEVELS_get p 3 = PRIORITY_LEVELS_get "normal" 3)
    ∧ (∀ now (b : Booking),
        ¬(b.priority = "urgent" ∨ b.priority = "high" ∨ b.priority = "normal"
            ∨ b.priority = "low") →
        effKey now b = calculate_priority_with_aging 3 b.timestamp now) := by
  refine ⟨?_, ?_, ?_⟩
  · intro ledger req now nextId hp hnc
    simp [create_booking_txn, hnc, hp]
  · intro p hp
    push_neg at hp
    obtain ⟨h1, h2, h3, h4⟩ := hp
    constructor
    · simp [PRIORITY_LEVELS_get, h1, h2, h3, h4]
    · simp [PRIORITY_LEVELS_get, h1, h2, h3, h4]
  · intro now b hp
    push_neg at hp
    obtain ⟨h1, h2, h3, h4⟩ := hp
    simp [effKey, PRIORITY_LEVELS_get, h1, h2, h3, h4]

/-- Claim C10, witness: the priority-less request `reqSameSlot` stored on an
empty ledger gets priority `'normal'`, and the unrecognized priority string
`'asap'` is ranked `3`, like `'normal'`. -/
theorem c10_priority_defaults_witness :
    ((create_booking_txn [] reqSameSlot 0 1).2.map fun b => b.priority)
        = (([] : List Booking).map fun b => b.priority) ++ ["normal"]
    ∧ (PRIORITY_LEVELS_get "asap" 3 = 3
        ∧ PRIORITY_LEVELS_get "asap" 3 = PRIORITY_LEVELS_get "normal" 3)
    ∧ effKey 500 bkAsap = calculate_priority_with_aging 3 bkAsap.timestamp 500 :=
  ⟨c10_priority_defaults.1 [] reqSameSlot 0 1 rfl (by decide),
    c10_priority_defaults.2.1 "asap" (by decide),
    c10_priority_defaults.2.2 500 bkAsap (by decide)⟩

/-! ### Claim C8 -/

/-- A valid execution of the `ReaderWriterLock` in which a shared request
(caller 3) arrives strictly after an exclusive request (caller 2) started
waiting, and is granted while the writer is still waiting. -/
def rwCexTrace : List RWEvent :=
  [RWEvent.reqR 1, RWEvent.grantR 1, RWEvent.reqW 2, RWEvent.reqR 3,
    RWEvent.grantR 3]

/-- A trace that leaves one writer (caller 9) waiting and one reader
(caller 7) waiting, with no lock held. -/
def rwWaitTrace : List RWEvent := [RWEvent.reqW 9, RWEvent.reqR 7]

/-- Claim C8, counterexample: `rwCexTrace` is a possible execution of the
lock's semantics — caller 1 holds a read lock, writer 2 requests and waits
(the `writers` counter is only incremented at grant time), reader 3 arrives
afterwards and is granted at once — yet it violates the claimed
write-preference property: reader 3's request arrives strictly after writer
2's, writer 2 has not been granted, and reader 3 is granted first. -/
theorem c8_reader_overtakes_writer :
    (rwExec rwCexTrace).isSome = true ∧ ¬ writePreferring rwCexTrace := by
  constructor
  · decide
  · intro h
    have hmem := h 2 3 4 2 3 (by decide) (by decide) (by decide) (by decide)
      (by decide) (by decide)
    have hnone : ∀ m, m < 4 → rwCexTrace.get? m ≠ some (RWEvent.grantW 2) := by
      decide
    obtain ⟨m, hm, hget⟩ := hmem
    exact hnone m hm hget

/-- Running one more event after a trace is one more step. -/
theorem rwExec_append (t : List RWEvent) (e : RWEvent) :
    rwExec (t ++ [e]) = (rwExec t).bind fun s => rwStep s e := by
  simp [rwExec, List.foldl_append]

/-- Claim C8, amended: the lock is reader-preferring, not write-preferring.
Whenever a trace reaches a state in which no writer has been *granted*
(`writers = 0`), any waiting read request can immediately be granted — even if
exclusive requests are waiting, since `acquire_read` only waits on the
`writers` counter, which a waiting (not yet granted) writer has not
incremented.  A waiting exclusive request therefore does not delay, and can be
overtaken by, shared requests that arrive after it. -/
theorem c8_reader_preferring (t : List RWEvent) (s : RWState)
    (h : rwExec t = some s) (r : Nat) (hr : r ∈ s.pendingR)
    (hw : s.writers = 0) :
    (rwExec (t ++ [RWEvent.grantR r])).isSome = true := by
  rw [rwExec_append, h]
  simp [rwStep, hr, hw]

/-- Claim C8, witness for the amended theorem: with writer 9 waiting and no
lock granted, reader 7 — who requested after writer 9 — can be granted
immediately. -/
theorem c8_reader_preferring_witness :
    (rwExec (rwWaitTrace ++ [RWEvent.grantR 7])).isSome = true :=
  c8_reader_preferring rwWaitTrace ⟨0, 0, [7], [9], [], []⟩ (by decide) 7
    (by decide) rfl

/-! ### Sorting lemmas for Claim C5 -/

/-- Everything in `insertByKey k x l` is `x` or came from `l`. -/
theorem mem_insertByKey {α : Type} (k : α → Int) (x z : α) :
    ∀ l : List α, z ∈ insertByKey k x l → z = x ∨ z ∈ l := by
  intro l
  induction l with
  | nil => simp [insertByKey]
  | cons y ys ih =>
    simp only [insertByKey]
    split
    · intro hz
      rcases List.mem_cons.1 hz with h | h
      · exact Or.inr (h ▸ List.mem_cons_self _ _)
      · rcases ih h with h' | h'
        · exact Or.inl h'
        · exact Or.inr (List.mem_cons_of_mem _ h')
    · intro hz
      rcases List.mem_cons.1 hz with h | h
      · exact Or.inl h
      · exact Or.inr h

/-- `insertByKey` inserts: the result is a permutation of `x :: l`. -/
theorem perm_insertByKey {α : Type} (k : α → Int) (x : α) :
    ∀ l : List α, (insertByKey k x l).Perm (x :: l) := by
  intro l
  induction l with
  | nil => simp [insertByKey]
  | cons y ys ih =>
    simp only [insertByKey]
    split
    · exact (ih.cons y).trans (List.Perm.swap x y ys)
    · exact List.Perm.refl _

/-- `stableSortByKey` permutes its input. -/
theorem perm_stableSortByKey {α : Type} (k : α → Int) :
    ∀ l : List α, (stableSortByKey k l).Perm l := by
  intro l
  induction l with
  | nil => exact List.Perm.refl _
  | cons y ys ih =>
    exact (perm_insertByKey k y (stableSortByKey k ys)).trans (ih.cons y)

/-- Inserting `x` into a list sorted by key and tie-broken by `R` keeps it
sorted, provided `x` is `R`-below every element already present (in the
stable sort `x` is the element that came first in the original list).
Elements in front of the insertion point have strictly smaller keys; `x` is
placed before every element of equal or larger key. -/
theorem pairwise_insertByKey {α : Type} (k : α → Int) (R : α → α → Prop)
    (x : α) :
    ∀ l : List α,
      l.Pairwise (fun a b => k a < k b ∨ (k a = k b ∧ R a b)) →
      (∀ z ∈ l, R x z) →
      (insertByKey k x l).Pairwise
        (fun a b => k a < k b ∨ (k a = k b ∧ R a b)) := by
  intro l
  induction l with
  | nil => intro _ _; exact List.pairwise_singleton _ _
  | cons y ys ih =>
    intro hp hx
    rw [List.pairwise_cons] at hp
    obtain ⟨hy, hys⟩ := hp
    simp only [insertByKey]
    split
    · next hk =>
      rw [List.pairwise_cons]
      refine ⟨?_, ih hys fun z hz => hx z (List.mem_cons_of_mem _ hz)⟩
      intro z hz
      rcases mem_insertByKey k x z ys hz with rfl | h
      · exact Or.inl hk
      · exact hy z h
    · next hk =>
      push_neg at hk
      rw [List.pairwise_cons]
      constructor
      · intro z hz
        rcases List.mem_cons.1 hz with rfl | h
        · rcases lt_or_eq_of_le hk with h' | h'
          · exact Or.inl h'
          · exact Or.inr ⟨h', hx z (List.mem_cons_self _ _)⟩
        · rcases hy z h with h' | h'
          · exact Or.inl (lt_of_le_of_lt hk h')
          · rcases lt_or_eq_of_le hk with h'' | h''
            · exact Or.inl (lt_of_lt_of_le h'' (le_of_eq h'.1))
            · exact Or.inr ⟨h''.trans h'.1, hx z (List.mem_cons_of_mem _ h)⟩
      · rw [List.pairwise_cons]
        exact ⟨hy, hys⟩

/-- Stability of `stableSortByKey`: if the input is pairwise related by `R`
(for the listing, `R` is the SQL pre-sort order `id DESC`), then the output is
sorted by key ascending with ties still related by `R`. -/
theorem pairwise_stableSortByKey {α : Type} (k : α → Int) (R : α → α → Prop) :
    ∀ l : List α, l.Pairwise R →
      (stableSortByKey k l).Pairwise
        (fun a b => k a < k b ∨ (k a = k b ∧ R a b)) := by
  intro l
  induction l with
  | nil => intro _; exact List.Pairwise.nil
  | cons y ys ih =>
    intro hp
    rw [List.pairwise_cons] at hp
    obtain ⟨hy, hys⟩ := hp
    refine pairwise_insertByKey k R y (stableSortByKey k ys) (ih hys) ?_
    intro z hz
    exact hy z ((perm_stableSortByKey k ys).mem_iff.1 hz)

/-- Everything in `insertLe le x l` is `x` or came from `l`. -/
theorem mem_insertLe {α : Type} (le : α → α → Bool) (x z : α) :
    ∀ l : List α, z ∈ insertLe le x l → z = x ∨ z ∈ l := by
  intro l
  induction l with
  | nil => simp [insertLe]
  | cons y ys ih =>
    simp only [insertLe]
    split
    · intro hz
      rcases List.mem_cons.1 hz with h | h
      · exact Or.inr (h ▸ List.mem_cons_self _ _)
      · rcases ih h with h' | h'
        · exact Or.inl h'
        · exact Or.inr (List.mem_cons_of_mem _ h')
    · intro hz
      rcases List.mem_cons.1 hz with h | h
      · exact Or.inl h
      · exact Or.inr h

/-- `insertLe` inserts: the result is a permutation of `x :: l`. -/
theorem perm_insertLe {α : Type} (le : α → α → Bool) (x : α) :
    ∀ l : List α, (insertLe le x l).Perm (x :: l) := by
  intro l
  induction l with
  | nil => simp [insertLe]
  | cons y ys ih =>
    simp only [insertLe]
    split
    · exact (ih.cons y).trans (List.Perm.swap x y ys)
    · exact List.Perm.refl _

/-- `insertionSortLe` permutes its input. -/
theorem perm_insertionSortLe {α : Type} (le : α → α → Bool) :
    ∀ l : List α, (insertionSortLe le l).Perm l := by
  intro l
  induction l with
  | nil => exact List.Perm.refl _
  | cons y ys ih =>
    exact (perm_insertLe le y (insertionSortLe le ys)).trans (ih.cons y)

/-- On two rows of equal status `'pending'`, the `ORDER BY status ASC, id DESC`
comparator reduces to the id comparison. -/
theorem sqlLe_pending {a b : Booking} (ha : a.status = "pending")
    (hb : b.status = "pending") : sqlLe a b = true ↔ b.id ≤ a.id := by
  have hs : strLt "pending" "pending" = false := by decide
  simp [sqlLe, ha, hb, hs]

/-- Inserting a pending row into a list of pending rows sorted by `id DESC`
with the SQL comparator keeps it sorted by `id DESC`. -/
theorem insertLe_sql_id_desc (x : Booking) :
    ∀ l : List Booking, (∀ b ∈ l, b.status = "pending") →
      x.status = "pending" →
      l.Pairwise (fun a b => b.id ≤ a.id) →
      (insertLe sqlLe x l).Pairwise (fun a b => b.id ≤ a.id) := by
  intro l
  induction l with
  | nil => intro _ _ _; exact List.pairwise_singleton _ _
  | cons y ys ih =>
    intro hpend hx hp
    rw [List.pairwise_cons] at hp
    obtain ⟨hy, hys⟩ := hp
    have hyp : y.status = "pending" := hpend y (List.mem_cons_self _ _)
    simp only [insertLe]
    split
    · next hle =>
      rw [List.pairwise_cons]
      refine ⟨?_, ih (fun b hb => hpend b (List.mem_cons_of_mem _ hb)) hx hys⟩
      intro z hz
      rcases mem_insertLe sqlLe x z ys hz with rfl | h
      · exact (sqlLe_pending hyp hx).1 hle
      · exact hy z h
    · next hle =>
      have hlt : y.id ≤ x.id := by
        by_contra hcon
        exact hle ((sqlLe_pending hyp hx).2 (by omega))
      rw [List.pairwise_cons]
      constructor
      · intro z hz
        rcases List.mem_cons.1 hz with rfl | h
        · exact hlt
        · exact le_trans (hy z h) hlt
      · rw [List.pairwise_cons]
        exact ⟨hy, hys⟩

/-- Sorting an all-pending row list with the `ORDER BY status ASC, id DESC`
comparator yields a list sorted by `id DESC` (non-strictly). -/
theorem insertionSortLe_sql_id_desc :
    ∀ l : List Booking, (∀ b ∈ l, b.status = "pending") →
      (insertionSortLe sqlLe l).Pairwise (fun a b => b.id ≤ a.id) := by
  intro l
  induction l with
  | nil => intro _; exact List.Pairwise.nil
  | cons y ys ih =>
    intro hpend
    refine insertLe_sql_id_desc y (insertionSortLe sqlLe ys) ?_
      (hpend y (List.mem_cons_self _ _))
      (ih fun b hb => hpend b (List.mem_cons_of_mem _ hb))
    intro b hb
    exact hpend b (List.mem_cons_of_mem _
      ((perm_insertionSortLe sqlLe ys).mem_iff.1 hb))

/-! ### Claim C5 -/

/-- Claim C5, counterexample: `bkP1` (id 1) was created before `bkP2` (id 2)
and both have the same effective priority, yet the pending listing returns
`bkP2` first — the tie is broken by descending id (latest creation first),
because the SQL pre-sort is `id DESC` and the Python sort is stable; the
claimed ascending-creation (FIFO) tie-break does not hold. -/
theorem c5_tie_break_descending :
    bkP1.timestamp < bkP2.timestamp
    ∧ effKey 1000 bkP1 = effKey 1000 bkP2
    ∧ ((get_bookings_pending [bkP1, bkP2] none 1000).map fun b => b.id)
        = [2, 1] := by
  decide

/-- Claim C5, amended: for a ledger with distinct row ids, the
`status = pending` listing returns exactly the pending rows (a permutation of
the filtered ledger), ordered ascending by effective priority with ties broken
by *descending* id — i.e. by descending creation order, the most recently
created request first within a priority tier, not FIFO. -/
theorem c5_pending_order (ledger : List Booking) (faculty : Option String)
    (now : Int) (hids : ledger.Pairwise fun a b => a.id ≠ b.id) :
    (get_bookings_pending ledger faculty now).Pairwise
        (fun a b => effKey now a < effKey now b
          ∨ (effKey now a = effKey now b ∧ b.id < a.id))
    ∧ (get_bookings_pending ledger faculty now).Perm
        (ledger.filter (pendingFilter faculty)) := by
  unfold get_bookings_pending
  have hpend : ∀ b ∈ ledger.filter (pendingFilter faculty),
      b.status = "pending" := by
    intro b hb
    have h2 := (List.mem_filter.1 hb).2
    simp only [pendingFilter, Bool.and_eq_true, beq_iff_eq] at h2
    exact h2.2
  have hne : (ledger.filter (pendingFilter faculty)).Pairwise
      (fun a b => a.id ≠ b.id) := hids.sublist (List.filter_sublist ledger)
  have hsorted := insertionSortLe_sql_id_desc _ hpend
  have hperm1 := perm_insertionSortLe sqlLe (ledger.filter (pendingFilter faculty))
  have hne2 : (insertionSortLe sqlLe (ledger.filter (pendingFilter faculty))).Pairwise
      (fun a b => a.id ≠ b.id) := (hperm1.pairwise_iff fun h => Ne.symm h).2 hne
  have hdesc : (insertionSortLe sqlLe (ledger.filter (pendingFilter faculty))).Pairwise
      (fun a b => b.id < a.id) :=
    (hsorted.and hne2).imp fun h => lt_of_le_of_ne h.1 (Ne.symm h.2)
  refine ⟨pairwise_stableSortByKey (effKey now) (fun a b => b.id < a.id) _ hdesc, ?_⟩
  exact (perm_stableSortByKey (effKey now) _).trans hperm1

/-- Claim C5, witness for the amended theorem at the two-row ledger
`[bkP1, bkP2]`. -/
theorem c5_pending_order_witness :
    (get_bookings_pending [bkP1, bkP2] none 1000).Pairwise
        (fun a b => effKey 1000 a < effKey 1000 b
          ∨ (effKey 1000 a = effKey 1000 b ∧ b.id < a.id))
    ∧ (get_bookings_pending [bkP1, bkP2] none 1000).Perm
        ([bkP1, bkP2].filter (pendingFilter none)) :=
  c5_pending_order [bkP1, bkP2] none 1000 (by decide)
